import Mathlib

/-!
Verification of the Voice-Agent booking-extraction engine.

This file is a shallow embedding, in Lean 4, of the conversation-state and
field-extraction engine of the repository (src/app/llm.py and
src/core/prompt.py).  Python strings are modelled as `List Char` (ASCII in
all inputs of interest); Python `None`-or-`str` fields are `Option String`;
Python truthiness of such a field is `pyTruthy`.  The regular expressions of
`_extract_booking_info` are embedded as direct scanning functions that
mirror `re.search` semantics (leftmost match, lazy/greedy quantifiers with
backtracking) for exactly the patterns the source uses.  External
collaborators (the OpenAI call, the database catalog, `datetime.now`, and
the `fuzzywuzzy` similarity metrics) are parameters of the embedded
functions; a faithful executable model of `difflib`-style `fuzz.ratio` is
provided for concrete evaluation where a stage consults it.
-/

/-! ## Python string primitives -/

/-- Python `\s` / `str.strip()` whitespace, ASCII range. -/
def isSpaceP (c : Char) : Bool :=
  c = ' ' || c = '\t' || c = '\n' || c = '\x0d' || c = '\x0b' || c = '\x0c'

/-- Python `\d`, ASCII range. -/
def isDigitC (c : Char) : Bool := c.isDigit

/-- Python `[a-zA-Z]`. -/
def isAlphaC (c : Char) : Bool := c.isAlpha

/-- Python `\w` (ASCII): letters, digits, underscore. -/
def isWordC (c : Char) : Bool := c.isAlphanum || c = '_'

/-- The regex class `[6-9]` used by the phone patterns. -/
def isHiDigit (c : Char) : Bool := c = '6' || c = '7' || c = '8' || c = '9'

/-- The regex class `[\s-]` used by the separated phone pattern. -/
def isSepC (c : Char) : Bool := isSpaceP c || c = '-'

/-- ASCII lower-casing of one character, as Python `str.lower()` acts on
ASCII text. -/
def lowerC (c : Char) : Char :=
  if 'A' ≤ c && c ≤ 'Z' then Char.ofNat (c.toNat + 32) else c

/-- ASCII upper-casing of one character. -/
def upperC (c : Char) : Char :=
  if 'a' ≤ c && c ≤ 'z' then Char.ofNat (c.toNat - 32) else c

/-- Python `str.lower()` over the character list. -/
def lowerL (s : List Char) : List Char := s.map lowerC

/-- The character list of a string literal. -/
def strL (s : String) : List Char := s.data

/-- Python `str.strip()` (default: strip whitespace at both ends). -/
def pyStrip (s : List Char) : List Char :=
  ((s.dropWhile isSpaceP).reverse.dropWhile isSpaceP).reverse

/-- Helper for `pyTitle`: `prevAlpha` records whether the previous character
was a letter. -/
def pyTitleGo (prevAlpha : Bool) : List Char → List Char
  | [] => []
  | c :: r =>
    if isAlphaC c then
      (if prevAlpha then lowerC c else upperC c) :: pyTitleGo true r
    else
      c :: pyTitleGo false r

/-- Python `str.title()`: the first letter of each run of letters is
upper-cased, the rest lower-cased. -/
def pyTitle (s : List Char) : List Char := pyTitleGo false s

/-- One step of Python `str.split()` (no argument): accumulate the current
word and the finished words, scanning from the right. -/
def splitWsStep (c : Char) (st : List Char × List (List Char)) :
    List Char × List (List Char) :=
  if isSpaceP c then
    ([], if st.1.isEmpty then st.2 else st.1 :: st.2)
  else
    (c :: st.1, st.2)

/-- Python `str.split()` with no argument: split on runs of whitespace,
producing no empty words. -/
def splitWs (s : List Char) : List (List Char) :=
  let st := s.foldr splitWsStep ([], [])
  if st.1.isEmpty then st.2 else st.1 :: st.2

/-- Python substring containment, `needle in hay`. -/
def isSubL : List Char → List Char → Bool
  | n, [] => n.isEmpty
  | n, c :: rest => n.isPrefixOf (c :: rest) || isSubL n rest

/-- Fuelled worker for `pyReplace` (fuel only drives termination; it is
instantiated with the length of the scanned list). -/
def pyReplaceGo (pat rep : List Char) : Nat → List Char → List Char
  | _, [] => []
  | 0, s => s
  | fuel + 1, c :: rest =>
    if pat.isPrefixOf (c :: rest) && !pat.isEmpty then
      rep ++ pyReplaceGo pat rep fuel ((c :: rest).drop pat.length)
    else
      c :: pyReplaceGo pat rep fuel rest

/-- Python `str.replace(pat, rep)`: replace non-overlapping occurrences left
to right. -/
def pyReplace (pat rep s : List Char) : List Char :=
  pyReplaceGo pat rep s.length s

/-- Python truthiness of an optional string field (`None` and `""` are
falsy). -/
def pyTruthy (o : Option String) : Bool :=
  match o with
  | none => false
  | some s => !s.isEmpty

/-- `len(field or "")` for an optional string field: the length Python sees
after the `or ""` fallback. -/
def pyLenOr0 (o : Option String) : Nat :=
  match o with
  | none => 0
  | some s => if s.isEmpty then 0 else s.length

/-- Python `not user_text or not user_text.strip()`: the utterance is empty
or whitespace-only. -/
def isBlankS (u : String) : Bool := u.data.all isSpaceP

/-! ## The booking record (src/core/prompt.py, class BookingData) -/

/-- `BookingData.__init__`: every extraction field starts as `None`
(modelled `none`), `confirmation_status` starts `"pending"`.  The status is
a plain Python string in the source and is modelled as `String`. -/
structure BookingData where
  customer_name : Option String
  contact : Option String
  lead_source : Option String
  pickup_location : Option String
  drop_location : Option String
  vehicle_type : Option String
  body_type : Option String
  goods_type : Option String
  trip_date : Option String
  confirmation_status : String
deriving DecidableEq, Repr

/-- The record `BookingData()` produces. -/
def initBookingData : BookingData :=
  { customer_name := none, contact := none, lead_source := none,
    pickup_location := none, drop_location := none, vehicle_type := none,
    body_type := none, goods_type := none, trip_date := none,
    confirmation_status := "pending" }

/-- The data attributes `BookingData.__init__` installs: the names for which
`hasattr` holds on a fresh record (methods aside, see `updateField`). -/
def bookingFieldNames : List String :=
  ["customer_name", "contact", "lead_source", "pickup_location",
   "drop_location", "vehicle_type", "body_type", "goods_type",
   "trip_date", "confirmation_status"]

/-- `BookingData.update_field`: `if hasattr(self, field): setattr(self,
field, value)`.  Attribute names are modelled by the record's data fields;
an unknown name is a silent no-op. -/
def updateField (field value : String) (b : BookingData) : BookingData :=
  if field = "customer_name" then { b with customer_name := some value }
  else if field = "contact" then { b with contact := some value }
  else if field = "lead_source" then { b with lead_source := some value }
  else if field = "pickup_location" then { b with pickup_location := some value }
  else if field = "drop_location" then { b with drop_location := some value }
  else if field = "vehicle_type" then { b with vehicle_type := some value }
  else if field = "body_type" then { b with body_type := some value }
  else if field = "goods_type" then { b with goods_type := some value }
  else if field = "trip_date" then { b with trip_date := some value }
  else if field = "confirmation_status" then { b with confirmation_status := value }
  else b

/-! ## Confirmation detection (src/app/llm.py, _detect_confirmation) -/

/-- The expanded confirmation keyword list of `_detect_confirmation`. -/
def confirmationKeywords : List String :=
  ["yes", "yeah", "yep", "ok", "okay", "correct", "right", "sure",
   "fine", "perfect", "that's right", "confirmed", "done",
   "absolutely", "exactly"]

/-- The rejection keyword list of `_detect_confirmation`. -/
def rejectionKeywords : List String :=
  ["no", "not interested", "cancel", "don't want", "not now"]

/-- `any(keyword in text_lower for keyword in kws)`. -/
def hasAnyKw (kws : List String) (tl : List Char) : Bool :=
  kws.any (fun k => isSubL (strL k) tl)

/-- `_detect_confirmation(text)`: lower-cases the utterance, then moves
`pending → confirmed` when a confirmation keyword occurs, and afterwards
(reading the possibly updated status) `pending → not_interested` when a
rejection keyword occurs. -/
def detectConfirmation (text : List Char) (status : String) : String :=
  let tl := lowerL text
  let s1 := if hasAnyKw confirmationKeywords tl && status = "pending"
            then "confirmed" else status
  if hasAnyKw rejectionKeywords tl && s1 = "pending"
  then "not_interested" else s1

/-- `check_booking_confirmed_marker`: the literal marker in the raw
response text. -/
def checkBookingConfirmedMarker (responseText : String) : Bool :=
  isSubL (strL "BOOKING_CONFIRMED") (strL responseText)

/-- The per-turn status update of `generate_response`: `_detect_confirmation`
on the user text, then the `BOOKING_CONFIRMED` marker check on the response
text, which sets `confirmed` unconditionally. -/
def statusTurn (userText responseText : List Char) (status : String) : String :=
  let s1 := detectConfirmation userText status
  if isSubL (strL "BOOKING_CONFIRMED") responseText then "confirmed" else s1

/-- The status after a sequence of processed turns, each a pair of user
text and response text. -/
def statusAfter (turns : List (List Char × List Char)) (s : String) : String :=
  turns.foldl (fun st t => statusTurn t.1 t.2 st) s

/-! ## Trip-date extraction (src/app/llm.py lines 609-627) -/

/-- The trip-date block of `_extract_booking_info`.  `datetime.now()` and
`strftime("%Y-%m-%d")` are external; `fmtNow k` stands for the formatted
current date plus `k` days.  The source's branch order is kept: `today`/
`now`, then `tomorrow`, then `day after tomorrow`/`overmorrow`. -/
def tripDateStage (fmtNow : Nat → String) (tl : List Char) (r : BookingData) :
    BookingData :=
  if !pyTruthy r.trip_date then
    if isSubL (strL "today") tl || isSubL (strL "now") tl then
      { r with trip_date := some (fmtNow 0) }
    else if isSubL (strL "tomorrow") tl then
      { r with trip_date := some (fmtNow 1) }
    else if isSubL (strL "day after tomorrow") tl || isSubL (strL "overmorrow") tl then
      { r with trip_date := some (fmtNow 2) }
    else r
  else r

/-! ## Conversation history (src/app/llm.py, __init__ / generate_response /
_get_recent_messages) -/

/-- One turn of the conversation history: `{ role, content }`. -/
structure Message where
  role : String
  content : String
deriving DecidableEq, Repr

/-- SYSTEM_PROMPT of src/core/prompt.py. -/
def systemPromptText : String :=
  "You are DropTruck Sales Agent. Speak in short, clear 1–2 sentences. Never mention AI or rules. Listen fully and acknowledge before asking the next question.\nYour job is to strictly collect the following fields in this exact order: customer_name → number_1 → pickup city → drop city → truck type → body type → material → required date.\nAsk each field directly and do not move to the next field until the current one is answered. Do not skip or merge fields.\nIf the user gives extra or out-of-order information, store it silently but continue asking missing fields in order.\nAfter all fields are collected, say: “Name [name], mobile [number], pickup [pickup], drop [drop], truck [truck], body [body], material [material], date [date]. Correct?”\nConfirmation words: yes, yeah, yep, ok, okay, right, correct, sure, perfect, absolutely, exactly, done, confirmed.\nAfter confirmation, say “Your booking is confirmed.” and then output BOOKING_CONFIRMED.\n"

/-- The system turn appended by `LLMAgent.__init__` when an API key is
present. -/
def systemMessage : Message := { role := "system", content := systemPromptText }

/-- `LLMAgent.__init__`: the conversation history starts as `[]` and the
system prompt is appended only when an API key is configured. -/
def initHistory (hasKey : Bool) : List Message :=
  if hasKey then [systemMessage] else []

/-- Python negative-slice `lst[-n:]` (for `n = 0` the slice is the whole
list). -/
def pySliceLast (n : Nat) (l : List Message) : List Message :=
  if n = 0 then l else l.drop (l.length - n)

/-- `_get_recent_messages(max_exchanges)`: every system message, then the
last `2 * max_exchanges` non-system messages, in order. -/
def getRecentMessages (maxExchanges : Nat) (h : List Message) : List Message :=
  h.filter (fun m => m.role = "system") ++
    pySliceLast (maxExchanges * 2) (h.filter (fun m => ¬(m.role = "system")))

/-- The histories reachable in a keyed (non-echo-mode) session:
`__init__` appends the system turn; each non-blank utterance appends the
user turn and, when the OpenAI call succeeds, the assistant turn (on an
exception only the user turn remains appended).  Blank utterances return
before touching the history. -/
inductive ReachableHistory : List Message → Prop
  | init : ReachableHistory [systemMessage]
  | stepOk (h : List Message) (u a : String) :
      ReachableHistory h → isBlankS u = false →
      ReachableHistory (h ++ [{ role := "user", content := u },
                              { role := "assistant", content := a }])
  | stepErr (h : List Message) (u : String) :
      ReachableHistory h → isBlankS u = false →
      ReachableHistory (h ++ [{ role := "user", content := u }])

/-! ## A scanner embedding of the source's regular expressions

Each `re.search(pattern, text)` of `_extract_booking_info` is embedded as a
position-by-position scanner: `searchL` tries the pattern matcher at every
position left to right (tracking the previous character for `\b`), which is
exactly `re.search`'s leftmost-match rule.  Lazy captures (`+?`) grow from
the shortest capture, greedy optional groups and `\s+` try the longer
consumption first and backtrack, mirroring the backtracking engine. -/

/-- Try the matcher at every position, left to right, threading the
previous character (for word boundaries). -/
def searchAux (m : Option Char → List Char → Option α) :
    Option Char → List Char → Option α
  | prev, [] => m prev []
  | prev, c :: rest =>
    match m prev (c :: rest) with
    | some v => some v
    | none => searchAux m (some c) rest

/-- `re.search` over a text. -/
def searchL (m : Option Char → List Char → Option α) (s : List Char) :
    Option α :=
  searchAux m none s

/-- `\b` read between the previous character and a word character. -/
def bndBefore (p : Option Char) : Bool :=
  match p with
  | none => true
  | some c => !isWordC c

/-- `\b` read between a word character and the rest of the text. -/
def bndAfter (s : List Char) : Bool :=
  match s with
  | [] => true
  | c :: _ => !isWordC c

/-- Consume a literal. -/
def litL (lit s : List Char) : Option (List Char) :=
  if lit.isPrefixOf s then some (s.drop lit.length) else none

/-- A literal alternation `(?:l1|l2|…)`.  Every alternation the source uses
has pairwise non-overlapping alternatives at any one position, so taking
the first prefixing literal is faithful. -/
def litAltL : List (List Char) → List Char → Option (List Char)
  | [], _ => none
  | l :: ls, s =>
    match litL l s with
    | some r => some r
    | none => litAltL ls s

/-- Greedy backtracking worker for `\s+`/`\s*`: try the continuation after
`j` whitespace characters, `j` descending. -/
def spacesTryFrom (k : List Char → Option α) (s : List Char) : Nat → Option α
  | 0 => none
  | j + 1 =>
    match k (s.drop (j + 1)) with
    | some v => some v
    | none => spacesTryFrom k s j

/-- `\s+` followed by the continuation `k`: greedy with backtracking. -/
def spaces1Back (k : List Char → Option α) (s : List Char) : Option α :=
  spacesTryFrom k s (s.takeWhile isSpaceP).length

/-- `(?:lit\s+)?` followed by the continuation `k`: greedy, with fallback
to not consuming the group. -/
def optLitThen (lit : List Char) (k : List Char → Option α) (s : List Char) :
    Option α :=
  match litL lit s with
  | some r =>
    match spaces1Back k r with
    | some v => some v
    | none => k s
  | none => k s

/-- Lazy-capture worker: the capture collected so far is `accRev`
(reversed); try the continuation first, then extend by one class
character. -/
def lazyGo (cls : Char → Bool) (k : List Char → List Char → Option α)
    (accRev : List Char) : List Char → Option α
  | [] => k accRev.reverse []
  | c :: r =>
    match k accRev.reverse (c :: r) with
    | some v => some v
    | none => if cls c then lazyGo cls k (c :: accRev) r else none

/-- A lazy capture `(cls+?)` followed by the continuation `k cap rest`. -/
def lazyCap (cls : Char → Bool) (k : List Char → List Char → Option α) :
    List Char → Option α
  | [] => none
  | c :: r => if cls c then lazyGo cls k [c] r else none

/-- The class `[a-zA-Z\s]`. -/
def clsAlphaSpace (c : Char) : Bool := isAlphaC c || isSpaceP c

/-- The class `[a-zA-Z0-9\s]`. -/
def clsAlnumSpace (c : Char) : Bool := isAlphaC c || isDigitC c || isSpaceP c

/-- Head-character test. -/
def headIs (s : List Char) (c : Char) : Bool :=
  match s with
  | x :: _ => x = c
  | [] => false

/-- `\s+lit` as a terminator lookahead (the literal begins with a non-space
character, so maximal munch of the whitespace is exact here). -/
def spacesThenLit (lit s : List Char) : Bool :=
  match s with
  | c :: r => isSpaceP c && lit.isPrefixOf (r.dropWhile isSpaceP)
  | [] => false

/-! ### Name extraction (llm.py lines 340-363) -/

/-- The deny-list of city names for the name extractor. -/
def nameCities : List String :=
  ["chennai", "bangalore", "mumbai", "delhi", "pune", "hyderabad"]

/-- The stop-word list of the name extractor. -/
def nameStopWords : List String :=
  ["is", "and", "my", "the", "from", "to", "for", "i", "said", "please",
   "you", "your"]

/-- The capture terminator `(?:\s+and|\s+my|\.|,|$)`. -/
def nameTermB (rest : List Char) : Bool :=
  rest.isEmpty || headIs rest '.' || headIs rest ',' ||
    spacesThenLit (strL "and") rest || spacesThenLit (strL "my") rest

/-- A name pattern: one of the anchor literals, `\s+`, then the lazy
capture `([a-zA-Z\s]+?)` up to `nameTermB`. -/
def nameMatchAt (lits : List (List Char)) (_prev : Option Char)
    (s : List Char) : Option (List Char) :=
  match litAltL lits s with
  | none => none
  | some r1 =>
    spaces1Back
      (lazyCap clsAlphaSpace fun cap rest =>
        if nameTermB rest then some cap else none) r1

/-- The anchors of the first name pattern. -/
def namePats1 : List (List Char) :=
  [strL "my name is", strL "i am", strL "this is", strL "name is",
   strL "i'm"]

/-- Post-processing of a name capture: strip, title-case, remove stop
words, require length at least 2 and reject city names.  `none` means the
match is rejected and the loop goes on to the next pattern. -/
def nameProcess (cap : List Char) : Option String :=
  let name := pyTitle (pyStrip cap)
  let parts := (splitWs name).filter
    (fun w => !nameStopWords.contains (String.mk (lowerL w)))
  let joined := List.intercalate (strL " ") parts
  if !parts.isEmpty && 2 ≤ joined.length then
    if !nameCities.contains (String.mk (lowerL joined)) then
      some (String.mk joined)
    else none
  else none

/-- Run one name pattern and its post-processing. -/
def nameTry (lits : List (List Char)) (tl : List Char) : Option String :=
  match searchL (nameMatchAt lits) tl with
  | some cap => nameProcess cap
  | none => none

/-- The customer-name block: two patterns tried in order with break on the
first accepted capture, guarded by an empty `customer_name`. -/
def nameStage (tl : List Char) (r : BookingData) : BookingData :=
  if !pyTruthy r.customer_name then
    match nameTry namePats1 tl with
    | some nm => { r with customer_name := some nm }
    | none =>
      match nameTry [strL "name"] tl with
      | some nm => { r with customer_name := some nm }
      | none => r
  else r

/-! ### Phone extraction (llm.py lines 365-417) -/

/-- The spoken-digit word map of `words_to_digits` (`double`/`triple` map
to the empty string). -/
def digitWordMap : List (String × String) :=
  [("zero", "0"), ("one", "1"), ("two", "2"), ("three", "3"),
   ("four", "4"), ("five", "5"), ("six", "6"), ("seven", "7"),
   ("eight", "8"), ("nine", "9"), ("double", ""), ("triple", "")]

/-- Lookup in the spoken-digit word map. -/
def dwLookup (w : List Char) : Option (List Char) :=
  match digitWordMap.find? (fun kv => strL kv.1 = w) with
  | some kv => some (strL kv.2)
  | none => none

/-- Fuelled token loop of `words_to_digits`: `double`/`triple` followed by
a mapped word emit that word's digit twice/thrice and consume both tokens;
unmapped tokens are skipped.  The fuel only drives termination and is
instantiated with the token count. -/
def wtdGo : Nat → List (List Char) → List Char
  | 0, _ => []
  | _, [] => []
  | fuel + 1, w :: rest =>
    match dwLookup w with
    | none => wtdGo fuel rest
    | some d =>
      if w = strL "double" then
        match rest with
        | n :: rest2 =>
          match dwLookup n with
          | some dn => (dn ++ dn) ++ wtdGo fuel rest2
          | none => d ++ wtdGo fuel rest
        | [] => d ++ wtdGo fuel rest
      else if w = strL "triple" then
        match rest with
        | n :: rest2 =>
          match dwLookup n with
          | some dn => (dn ++ dn ++ dn) ++ wtdGo fuel rest2
          | none => d ++ wtdGo fuel rest
        | [] => d ++ wtdGo fuel rest
      else d ++ wtdGo fuel rest

/-- The token loop of `words_to_digits`. -/
def wtd (ws : List (List Char)) : List Char := wtdGo ws.length ws

/-- `words_to_digits(text)`: lower-case, split on whitespace, run the
token loop. -/
def wordsToDigits (textRaw : List Char) : List Char :=
  wtd (splitWs (lowerL textRaw))

/-- First character in `[6-9]`. -/
def headHi (s : List Char) : Bool :=
  match s with
  | c :: _ => isHiDigit c
  | [] => false

/-- `\b([6-9]\d{9})\b` at one position. -/
def matchPhone1 (prev : Option Char) (s : List Char) : Option (List Char) :=
  if bndBefore prev && decide (10 ≤ s.length) && headHi s &&
      (s.take 10).all isDigitC && bndAfter (s.drop 10) then
    some (s.take 10)
  else none

/-- `\d{5}\b`. -/
def p2Tail5 (s : List Char) : Option (List Char) :=
  if decide (5 ≤ s.length) && (s.take 5).all isDigitC && bndAfter (s.drop 5)
  then some (s.take 5)
  else none

/-- `[\s-]?\d{5}\b`, greedy on the optional separator. -/
def p2Sep5 (s : List Char) : Option (List Char) :=
  match s with
  | c :: r =>
    if isSepC c then
      match p2Tail5 r with
      | some t => some (c :: t)
      | none => p2Tail5 s
    else p2Tail5 s
  | [] => p2Tail5 s

/-- `\d{3}[\s-]?\d{5}\b`. -/
def p2Mid3 (s : List Char) : Option (List Char) :=
  if decide (3 ≤ s.length) && (s.take 3).all isDigitC then
    match p2Sep5 (s.drop 3) with
    | some t => some (s.take 3 ++ t)
    | none => none
  else none

/-- `[\s-]?\d{3}[\s-]?\d{5}\b`, greedy on the first separator. -/
def p2SepMid (s : List Char) : Option (List Char) :=
  match s with
  | c :: r =>
    if isSepC c then
      match p2Mid3 r with
      | some t => some (c :: t)
      | none => p2Mid3 s
    else p2Mid3 s
  | [] => p2Mid3 s

/-- `\b([6-9]\d[\s-]?\d{3}[\s-]?\d{5})\b` at one position; the capture
includes the separators, as the group does in the source. -/
def matchPhone2 (prev : Option Char) (s : List Char) : Option (List Char) :=
  match s with
  | c0 :: c1 :: r =>
    if bndBefore prev && isHiDigit c0 && isDigitC c1 then
      match p2SepMid r with
      | some t => some (c0 :: c1 :: t)
      | none => none
    else none
  | _ => none

/-- The class `[\s:]`. -/
def clsSpaceColon (c : Char) : Bool := isSpaceP c || c = ':'

/-- `(?:number|mobile|phone|contact)[\s:]+([6-9]\d{9})` at one position
(no word boundaries in this pattern). -/
def matchPhone3 (_prev : Option Char) (s : List Char) : Option (List Char) :=
  match litAltL [strL "number", strL "mobile", strL "phone",
      strL "contact"] s with
  | none => none
  | some r1 =>
    match r1 with
    | c :: r2 =>
      if clsSpaceColon c then
        let r3 := r2.dropWhile clsSpaceColon
        if decide (10 ≤ r3.length) && headHi r3 && (r3.take 10).all isDigitC
        then some (r3.take 10)
        else none
      else none
    | [] => none

/-- `phone.replace(' ', '').replace('-', '')`. -/
def removeSpDash (l : List Char) : List Char :=
  l.filter (fun c => !(c = ' ' || c = '-'))

/-- Third iteration of the phone-pattern loop. -/
def phoneLoop3 (textRaw : List Char) : Option String :=
  match searchL matchPhone3 textRaw with
  | some g =>
    let ph := removeSpDash g
    if ph.length = 10 then some (String.mk ph) else none
  | none => none

/-- Second iteration of the phone-pattern loop (falls through to the third
pattern when the match does not clean to 10 digits). -/
def phoneLoop2 (textRaw : List Char) : Option String :=
  match searchL matchPhone2 textRaw with
  | some g =>
    let ph := removeSpDash g
    if ph.length = 10 then some (String.mk ph) else phoneLoop3 textRaw
  | none => phoneLoop3 textRaw

/-- The phone-pattern loop over the three regexes, run on the original-case
text as in the source. -/
def phoneLoop1 (textRaw : List Char) : Option String :=
  match searchL matchPhone1 textRaw with
  | some g =>
    let ph := removeSpDash g
    if ph.length = 10 then some (String.mk ph) else phoneLoop2 textRaw
  | none => phoneLoop2 textRaw

/-- The phone block: spoken-digit path first (accepted only at exactly 10
digits starting 6-9), then the three regex patterns. -/
def phoneStage (textRaw : List Char) (r : BookingData) : BookingData :=
  if !pyTruthy r.contact then
    let spoken := wordsToDigits textRaw
    if !spoken.isEmpty && spoken.length = 10 && headHi spoken then
      { r with contact := some (String.mk spoken) }
    else
      match phoneLoop1 textRaw with
      | some ph => { r with contact := some ph }
      | none => r
  else r

/-! ### Pickup/drop extraction (llm.py lines 419-466) -/

/-- The terminator `(?:\s|,|$|\.|\band\b)` of the from/to pattern's second
capture; `\band\b` reads the boundary against the capture's last
character. -/
def ftTermB (cap rest : List Char) : Bool :=
  rest.isEmpty || headIs rest ',' || headIs rest '.' ||
    (match rest with
     | c :: _ => isSpaceP c
     | [] => true) ||
    ((strL "and").isPrefixOf rest && bndBefore cap.getLast? &&
      bndAfter (rest.drop 3))

/-- `(?:from|pickup|trip from)\s+([a-zA-Z\s]+?)\s+(?:to|drop)\s+
([a-zA-Z\s]+?)(?:\s|,|$|\.|\band\b)` at one position. -/
def fromToAt (_prev : Option Char) (s : List Char) :
    Option (List Char × List Char) :=
  match litAltL [strL "from", strL "pickup", strL "trip from"] s with
  | none => none
  | some r1 =>
    spaces1Back
      (lazyCap clsAlphaSpace fun cap1 rest1 =>
        spaces1Back
          (fun r2 =>
            match litAltL [strL "to", strL "drop"] r2 with
            | none => none
            | some r3 =>
              spaces1Back
                (lazyCap clsAlphaSpace fun cap2 rest2 =>
                  if ftTermB cap2 rest2 then some (cap1, cap2) else none)
                r3)
          rest1)
      r1

/-- The source's from/to update guard on one location field: overwrite
when the field is falsy or the new value is strictly longer
(`if not old or len(new) > len(old or "")`). -/
def locUpd (old : Option String) (cand : String) : Option String :=
  if !pyTruthy old || pyLenOr0 old < cand.length then some cand else old

/-- The from/to location block: each location is overwritten when empty or
when the new capture is strictly longer (the source applies the guard to
each field independently; the pickup update does not touch the drop
field the drop guard reads). -/
def fromToStage (tl : List Char) (r : BookingData) : BookingData :=
  match searchL fromToAt tl with
  | none => r
  | some g =>
    let pickup := String.mk (pyTitle (pyStrip g.1))
    let drop := String.mk (pyTitle (pyStrip g.2))
    { r with pickup_location := locUpd r.pickup_location pickup,
             drop_location := locUpd r.drop_location drop }

/-- The terminator `(?:,|truck|\s+truck|\.|$)` of the confirmation-echo
location pattern. -/
def echoTermB (rest : List Char) : Bool :=
  rest.isEmpty || headIs rest ',' || headIs rest '.' ||
    (strL "truck").isPrefixOf rest || spacesThenLit (strL "truck") rest

/-- `pickup\s+(?:in\s+)?([a-zA-Z\s]+?),\s*drop\s+(?:in\s+)?([a-zA-Z\s]+?)
(?:,|truck|\s+truck|\.|$)` at one position. -/
def echoAt (_prev : Option Char) (s : List Char) :
    Option (List Char × List Char) :=
  match litL (strL "pickup") s with
  | none => none
  | some r1 =>
    spaces1Back
      (optLitThen (strL "in")
        (lazyCap clsAlphaSpace fun cap1 rest1 =>
          match rest1 with
          | ',' :: r2 =>
            match litL (strL "drop") (r2.dropWhile isSpaceP) with
            | none => none
            | some r4 =>
              spaces1Back
                (optLitThen (strL "in")
                  (lazyCap clsAlphaSpace fun cap2 rest2 =>
                    if echoTermB rest2 then some (cap1, cap2) else none))
                r4
          | _ => none))
      r1

/-- One pass of the source's prefix-cleanup loop on an echo capture. -/
def echoCleanOnce (pre x : List Char) : List Char :=
  if pre.isPrefixOf (lowerL x) then pyTitle (x.drop pre.length) else x

/-- The cleanup loop over the prefixes `'in '`, `'from '`, `'at '`. -/
def echoClean (x : List Char) : List Char :=
  echoCleanOnce (strL "at ") (echoCleanOnce (strL "from ")
    (echoCleanOnce (strL "in ") x))

/-- The source's echo update guard on one location field: overwrite
unconditionally when the cleaned capture is truthy and longer than 2
characters (`if pickup and len(pickup) > 2`). -/
def echoUpd (old : Option String) (cand : List Char) : Option String :=
  if !cand.isEmpty && 2 < cand.length then some (String.mk cand) else old

/-- The confirmation-echo location block: both locations are overwritten
unconditionally whenever the cleaned capture is longer than 2
characters (the guard reads only the capture, never the record). -/
def echoStage (tl : List Char) (r : BookingData) : BookingData :=
  match searchL echoAt tl with
  | none => r
  | some g =>
    let pickup := echoClean (pyTitle (pyStrip g.1))
    let drop := echoClean (pyTitle (pyStrip g.2))
    { r with pickup_location := echoUpd r.pickup_location pickup,
             drop_location := echoUpd r.drop_location drop }

/-! ### Body-type detection (llm.py lines 468-488) -/

/-- The hardcoded body-type table (the database extension is a parameter
of `bodyStage`). -/
def defaultBodyTypes : List (List Char × String) :=
  [(strL "open", "Open"), (strL "container", "Container")]

/-- The body-type block: guarded by `body_type is None`, first keyword
(in table insertion order) contained in the lower-cased text wins. -/
def bodyStage (table : List (List Char × String)) (tl : List Char)
    (r : BookingData) : BookingData :=
  if r.body_type.isNone then
    match table.find? (fun kv => isSubL kv.1 tl) with
    | some kv => { r with body_type := some kv.2 }
    | none => r
  else r

/-! ### Vehicle-type detection (llm.py lines 36-92 and 490-571) -/

/-- The hardcoded vehicle keyword table of `LLMAgent.__init__`, in
insertion order (the database extension is a parameter of the stages). -/
def defaultVehicleKeywords : List (List Char × String) :=
  [(strL "tata ace", "Tata Ace"), (strL "tata ac", "Tata Ace"),
   (strL "ace", "Tata Ace"), (strL "dost", "Dost"),
   (strL "bada dost", "Bada Dost"), (strL "bolero", "Bolero"),
   (strL "bolero pickup", "Bolero"), (strL "407", "407"),
   (strL "eicher", "Eicher"), (strL "ashok leyland", "Ashok Leyland"),
   (strL "12 feet", "12 Feet"), (strL "14 feet", "14 Feet"),
   (strL "17 feet", "17 Feet"), (strL "19 feet", "19 Feet"),
   (strL "20 feet", "20 Feet"), (strL "22 feet", "22 Feet"),
   (strL "24 feet", "24 Feet"), (strL "32 feet", "32 Feet Multi-Axle"),
   (strL "32 feet multi-axle", "32 Feet Multi-Axle"),
   (strL "32 feet multi axle", "32 Feet Multi-Axle"),
   (strL "trailer", "Trailer"), (strL "20 feet trailer", "20 Feet Trailer"),
   (strL "24 feet trailer", "24 Feet Trailer"),
   (strL "40 feet trailer", "40 Feet Trailer"),
   (strL "low-bed", "Low-Bed Trailer"), (strL "low bed", "Low-Bed Trailer"),
   (strL "semi-bed", "Semi-Bed Trailer"),
   (strL "semi bed", "Semi-Bed Trailer"),
   (strL "high-bed", "High-Bed Trailer"),
   (strL "high bed", "High-Bed Trailer"),
   (strL "6-wheel", "6-Wheel Truck"), (strL "6 wheel", "6-Wheel Truck"),
   (strL "10-wheel", "10-Wheel Truck"), (strL "10 wheel", "10-Wheel Truck"),
   (strL "12-wheel", "12-Wheel Truck"), (strL "12 wheel", "12-Wheel Truck"),
   (strL "14-wheel", "14-Wheel Truck"), (strL "14 wheel", "14-Wheel Truck"),
   (strL "16-wheel", "16-Wheel Truck"), (strL "16 wheel", "16-Wheel Truck"),
   (strL "car-carrier", "Car-Carrier"), (strL "car carrier", "Car-Carrier"),
   (strL "part-load", "Part-Load"), (strL "part load", "Part-Load")]

/-- The loop state of the fuzzy-matching stage: the source declares
`best_match = None`, `best_score = 0`, `best_vehicle = None`. -/
structure FuzzSt where
  bestScore : Nat
  bestMatch : Option (List Char)
  bestVehicle : Option String
deriving DecidableEq, Repr

/-- One inner-loop iteration of the fuzzy stage over a keyword: the source
updates `best_score` and `best_match` when `score > best_score and
score >= 85`, and never assigns `best_vehicle`. -/
def fuzzKwStep (pr : List Char → List Char → Nat) (phrase : List Char)
    (st : FuzzSt) (kv : List Char × String) : FuzzSt :=
  let score := pr phrase kv.1
  if st.bestScore < score && 85 ≤ score then
    { st with bestScore := score, bestMatch := some kv.1 }
  else st

/-- The word n-grams of lengths 1-4 starting at the head of `ws`, joined
with single spaces (inner loop `j` of the source, ascending). -/
def ngramsFrom (ws : List (List Char)) : List (List Char) :=
  (List.range 4).filterMap fun k =>
    if k + 1 ≤ ws.length then
      some (List.intercalate (strL " ") (ws.take (k + 1)))
    else none

/-- All word n-grams of lengths 1-4 (outer loop `i` of the source,
ascending). -/
def allNgrams : List (List Char) → List (List Char)
  | [] => []
  | w :: rest => ngramsFrom (w :: rest) ++ allNgrams rest

/-- The source's skip rule: n-grams shorter than 3 characters are skipped
unless they are `"ac"` or `"407"`. -/
def ngramKeep (p : List Char) : Bool :=
  3 ≤ p.length || p = strL "ac" || p = strL "407"

/-- Stage 1 of vehicle detection: fuzzy n-gram matching with
`fuzz.partial_ratio` (the metric `pr` is a parameter).  The acceptance
test `if best_vehicle and best_score >= 85` reads the never-assigned
`best_vehicle`. -/
def vehicleFuzzyStage (pr : List Char → List Char → Nat)
    (kws : List (List Char × String)) (tl : List Char) (r : BookingData) :
    BookingData :=
  if !pyTruthy r.vehicle_type then
    let phrases := (allNgrams (splitWs tl)).filter ngramKeep
    let st := phrases.foldl (fun st p => kws.foldl (fuzzKwStep pr p) st)
      { bestScore := 0, bestMatch := none, bestVehicle := none }
    if pyTruthy st.bestVehicle && 85 ≤ st.bestScore then
      { r with vehicle_type := st.bestVehicle }
    else r
  else r

/-- The terminator `(?:,|body|\s+open|\s+container|\.|$)` of the
truck-type pattern. -/
def truckTermB (rest : List Char) : Bool :=
  rest.isEmpty || headIs rest ',' || headIs rest '.' ||
    (strL "body").isPrefixOf rest || spacesThenLit (strL "open") rest ||
    spacesThenLit (strL "container") rest

/-- `truck\s+(?:type\s+)?([a-zA-Z0-9\s]+?)(?:,|body|\s+open|\s+container|
\.|$)` at one position. -/
def truckTypeAt (_prev : Option Char) (s : List Char) :
    Option (List Char) :=
  match litL (strL "truck") s with
  | none => none
  | some r1 =>
    spaces1Back
      (optLitThen (strL "type")
        (lazyCap clsAlnumSpace fun cap rest =>
          if truckTermB rest then some cap else none))
      r1

/-- One inner-loop iteration of stage 2 over a keyword: `fuzz.ratio` of
the lower-cased capture against the keyword, threshold 65, strict
improvement; this loop does record the canonical vehicle name. -/
def truckKwStep (ratio : List Char → List Char → Nat) (tm : List Char)
    (st : Nat × Option String) (kv : List Char × String) :
    Nat × Option String :=
  let score := ratio (lowerL tm) kv.1
  if st.1 < score && 65 ≤ score then (score, some kv.2) else st

/-- Stage 2 of vehicle detection: the explicit `truck [type] X`
confirmation pattern.  Note: the source runs this stage with no
empty-field guard, so a filled `vehicle_type` can be overwritten. -/
def truckTypeStage (ratio : List Char → List Char → Nat)
    (kws : List (List Char × String)) (tl : List Char) (r : BookingData) :
    BookingData :=
  match searchL truckTypeAt tl with
  | none => r
  | some cap =>
    let tm := pyStrip cap
    let best := kws.foldl (truckKwStep ratio tm) (0, none)
    if pyTruthy best.2 then { r with vehicle_type := best.2 } else r

/-- `(\d+)\s*(?:feet|ft|foot)` at one position (`\d+` is anchored at the
leftmost digit by the position scan; shrinking it cannot move a following
letter into view, so maximal munch is exact). -/
def feetAt (_prev : Option Char) (s : List Char) : Option (List Char) :=
  match s with
  | c :: _ =>
    if isDigitC c then
      let ds := s.takeWhile isDigitC
      let r1 := (s.drop ds.length).dropWhile isSpaceP
      if (strL "feet").isPrefixOf r1 || (strL "ft").isPrefixOf r1 ||
          (strL "foot").isPrefixOf r1 then
        some ds
      else none
    else none
  | [] => none

/-- Stage 3 of vehicle detection: the numeric feet fallback, then the
generic `"Truck"` label, guarded by an empty `vehicle_type`. -/
def feetStage (tl : List Char) (r : BookingData) : BookingData :=
  if !pyTruthy r.vehicle_type then
    match searchL feetAt tl with
    | some ds => { r with vehicle_type := some (String.mk (ds ++ strL " Feet")) }
    | none =>
      if isSubL (strL "truck") tl then { r with vehicle_type := some "Truck" }
      else r
  else r

/-! ### Goods/material extraction (llm.py lines 573-607) -/

/-- The terminator `(?:\s+from|\s+to|,|\.|$)` of the goods patterns. -/
def goodsTermB (rest : List Char) : Bool :=
  rest.isEmpty || headIs rest ',' || headIs rest '.' ||
    spacesThenLit (strL "from") rest || spacesThenLit (strL "to") rest

/-- A verb-anchored goods pattern `lit\s+([a-zA-Z0-9\s]+?)TERM` at one
position. -/
def goodsVerbAt (lit : List Char) (_prev : Option Char) (s : List Char) :
    Option (List Char) :=
  match litL lit s with
  | none => none
  | some r1 =>
    spaces1Back
      (lazyCap clsAlnumSpace fun cap rest =>
        if goodsTermB rest then some cap else none)
      r1

/-- A noun-anchored goods pattern `lit\s+(?:is\s+)?([a-zA-Z0-9\s]+?)TERM`
at one position. -/
def goodsNounAt (lit : List Char) (_prev : Option Char) (s : List Char) :
    Option (List Char) :=
  match litL lit s with
  | none => none
  | some r1 =>
    spaces1Back
      (optLitThen (strL "is")
        (lazyCap clsAlnumSpace fun cap rest =>
          if goodsTermB rest then some cap else none))
      r1

/-- Post-processing of a goods capture: strip, title-case, undo the
title-casing of `' And '`, require length over 2. -/
def goodsProcess (cap : List Char) : Option String :=
  let material := pyReplace (strL " And ") (strL " and ")
    (pyTitle (pyStrip cap))
  if 2 < material.length then some (String.mk material) else none

/-- The loop over the six goods patterns with break on the first accepted
capture. -/
def goodsLoop : List (Option Char → List Char → Option (List Char)) →
    List Char → Option String
  | [], _ => none
  | m :: ms, tl =>
    match searchL m tl with
    | some cap =>
      match goodsProcess cap with
      | some g => some g
      | none => goodsLoop ms tl
    | none => goodsLoop ms tl

/-- The six goods patterns, in source order. -/
def goodsMatchers : List (Option Char → List Char → Option (List Char)) :=
  [goodsVerbAt (strL "carrying"), goodsVerbAt (strL "transporting"),
   goodsVerbAt (strL "moving"), goodsNounAt (strL "material"),
   goodsNounAt (strL "goods"), goodsNounAt (strL "load")]

/-- The terminator `(?:,|date|\.|$)` of the confirmation-format material
pattern. -/
def goodsConfTermB (rest : List Char) : Bool :=
  rest.isEmpty || headIs rest ',' || headIs rest '.' ||
    (strL "date").isPrefixOf rest

/-- `material\s+([a-zA-Z0-9\s]+?)(?:,|date|\.|$)` at one position. -/
def goodsConfAt (_prev : Option Char) (s : List Char) :
    Option (List Char) :=
  match litL (strL "material") s with
  | none => none
  | some r1 =>
    spaces1Back
      (lazyCap clsAlnumSpace fun cap rest =>
        if goodsConfTermB rest then some cap else none)
      r1

/-- The goods block: the six-pattern loop, then the confirmation-format
pattern, each guarded by an empty `goods_type`. -/
def goodsStage (tl : List Char) (r : BookingData) : BookingData :=
  let r1 :=
    if !pyTruthy r.goods_type then
      match goodsLoop goodsMatchers tl with
      | some g => { r with goods_type := some g }
      | none => r
    else r
  if !pyTruthy r1.goods_type then
    match searchL goodsConfAt tl with
    | some cap =>
      let material := pyTitle (pyStrip cap)
      if 2 < material.length then
        { r1 with goods_type := some (String.mk material) }
      else r1
    | none => r1
  else r1

/-! ### The full extractor (llm.py, _extract_booking_info) -/

/-- `_extract_booking_info(text)`: the stages in source order.  `pr` and
`ratio` stand for `fuzz.partial_ratio` and `fuzz.ratio`; `kws` and
`bodyT` for the live keyword tables; `fmtNow` for the formatted
`datetime.now() + timedelta(days=k)`. -/
def extractBookingInfo (pr ratio : List Char → List Char → Nat)
    (kws bodyT : List (List Char × String)) (fmtNow : Nat → String)
    (text : List Char) (r0 : BookingData) : BookingData :=
  let tl := lowerL text
  let r1 := nameStage tl r0
  let r2 := phoneStage text r1
  let r3 := fromToStage tl r2
  let r4 := echoStage tl r3
  let r5 := bodyStage bodyT tl r4
  let r6 := vehicleFuzzyStage pr kws tl r5
  let r7 := truckTypeStage ratio kws tl r6
  let r8 := feetStage tl r7
  let r9 := goodsStage tl r8
  tripDateStage fmtNow tl r9

/-! ### Confirmation-format extraction (llm.py, _extract_from_confirmation) -/

/-- The city deny-list of `_extract_from_confirmation`. -/
def confCities : List String :=
  ["chennai", "bangalore", "mumbai", "delhi", "pune", "hyderabad", "goa",
   "kolkata"]

/-- The terminator `(?:,|\s+mobile)` of the confirmation name pattern. -/
def confNameTermB (rest : List Char) : Bool :=
  headIs rest ',' || spacesThenLit (strL "mobile") rest

/-- `name\s+([a-zA-Z\s]+?)(?:,|\s+mobile)` at one position. -/
def confNameAt (_prev : Option Char) (s : List Char) : Option (List Char) :=
  match litL (strL "name") s with
  | none => none
  | some r1 =>
    spaces1Back
      (lazyCap clsAlphaSpace fun cap rest =>
        if confNameTermB rest then some cap else none)
      r1

/-- `kw\s+([6-9]\d{9})` at one position (no word boundaries). -/
def confPhoneKwAt (kw : List Char) (_prev : Option Char) (s : List Char) :
    Option (List Char) :=
  match litL kw s with
  | none => none
  | some r1 =>
    spaces1Back
      (fun r2 =>
        if decide (10 ≤ r2.length) && headHi r2 && (r2.take 10).all isDigitC
        then some (r2.take 10)
        else none)
      r1

/-- `mobile\s+\((\d{3})\)\s*(\d{3})-(\d{4})` at one position; the source
joins the three groups. -/
def confPhoneParenAt (_prev : Option Char) (s : List Char) :
    Option (List Char) :=
  match litL (strL "mobile") s with
  | none => none
  | some r1 =>
    spaces1Back
      (fun r2 =>
        match r2 with
        | '(' :: r3 =>
          if decide (3 ≤ r3.length) && (r3.take 3).all isDigitC then
            match r3.drop 3 with
            | ')' :: r4 =>
              let r5 := r4.dropWhile isSpaceP
              if decide (3 ≤ r5.length) && (r5.take 3).all isDigitC then
                match r5.drop 3 with
                | '-' :: r6 =>
                  if decide (4 ≤ r6.length) && (r6.take 4).all isDigitC then
                    some (r3.take 3 ++ r5.take 3 ++ r6.take 4)
                  else none
                | _ => none
              else none
            | _ => none
          else none
        | _ => none)
      r1

/-- The loop over the three confirmation phone patterns with break on a
10-digit capture. -/
def confPhoneLoop : List (Option Char → List Char → Option (List Char)) →
    List Char → Option (List Char)
  | [], _ => none
  | m :: ms, tl =>
    match searchL m tl with
    | some g => if g.length = 10 then some g else confPhoneLoop ms tl
    | none => confPhoneLoop ms tl

/-- `_extract_from_confirmation(text)`: name (city-filtered) and phone
from the assistant's confirmation echo, each guarded by an empty field. -/
def extractFromConfirmation (text : List Char) (r : BookingData) :
    BookingData :=
  let tl := lowerL text
  let r1 :=
    if !pyTruthy r.customer_name then
      match searchL confNameAt tl with
      | some cap =>
        let nm := pyTitle (pyStrip cap)
        if !confCities.contains (String.mk (lowerL nm)) then
          { r with customer_name := some (String.mk nm) }
        else r
      | none => r
    else r
  if !pyTruthy r1.contact then
    match confPhoneLoop [confPhoneKwAt (strL "mobile"), confPhoneParenAt,
        confPhoneKwAt (strL "number")] tl with
    | some ph => { r1 with contact := some (String.mk ph) }
    | none => r1
  else r1

/-! ### The conversation step (llm.py, generate_response) -/

/-- The mutable state `generate_response` touches: the conversation
history and the booking record. -/
structure AgentState where
  history : List Message
  booking : BookingData
deriving DecidableEq, Repr

/-- `generate_response(user_text)`: blank input returns the fixed re-prompt
without touching any state; otherwise extraction and confirmation
detection run on the user text, then echo mode (no key) returns the echo
string, and the keyed path appends the user turn, calls the external
generator (`llm`, `none` modelling the raised exception), and on success
extracts from the response, applies the confirmation-format extractor and
the `BOOKING_CONFIRMED` marker, and appends the assistant turn. -/
def generateResponse (pr ratio : List Char → List Char → Nat)
    (kws bodyT : List (List Char × String)) (fmtNow : Nat → String)
    (llm : Option String) (hasKey : Bool) (st : AgentState)
    (userText : String) : String × AgentState :=
  if isBlankS userText then
    ("I didn't catch that. Could you please repeat?", st)
  else
    let b1 := extractBookingInfo pr ratio kws bodyT fmtNow (strL userText)
      st.booking
    let b2 := { b1 with
      confirmation_status := detectConfirmation (strL userText)
        b1.confirmation_status }
    if !hasKey then
      ("[Echo Mode] You said: " ++ userText, { st with booking := b2 })
    else
      let h1 := st.history ++ [{ role := "user", content := userText }]
      match llm with
      | none =>
        ("I'm having trouble processing that right now. Could you try again?",
          { history := h1, booking := b2 })
      | some resp =>
        let b3 := extractBookingInfo pr ratio kws bodyT fmtNow (strL resp) b2
        let b4 := extractFromConfirmation (strL resp) b3
        let b5 :=
          if checkBookingConfirmedMarker resp then
            { b4 with confirmation_status := "confirmed" }
          else b4
        (resp,
          { history := h1 ++ [{ role := "assistant", content := resp }],
            booking := b5 })

/-! ## An executable model of fuzz.ratio

`fuzzywuzzy.fuzz.ratio` is `difflib.SequenceMatcher` similarity:
`round(100 * 2 * M / T)` where `M` is the total size of the matching
blocks and `T` the summed length.  The strings compared here are far
below difflib's autojunk threshold (200), so the popularity heuristic and
the junk-extension loops of `find_longest_match` are no-ops and the
dynamic-programming scan below is the whole algorithm.  Rounding is
round-half-even on exact rationals. -/

/-- The ascending positions of a character in `b` (difflib's `b2j`). -/
def posOf (c : Char) (b : List Char) : List Nat :=
  (b.enum.filter (fun p => p.2 = c)).map (fun p => p.1)

/-- Fold of one `find_longest_match` row over the hit positions, updating
the best block on strict improvement (earliest `i`, then earliest `j`,
win ties). -/
def flmRowBest (i : Nat) (prev : Nat → Nat) (hits : List Nat)
    (best : Nat × Nat × Nat) : Nat × Nat × Nat :=
  hits.foldl
    (fun bst j =>
      let k := if j = 0 then 1 else prev (j - 1) + 1
      if bst.2.2 < k then (i + 1 - k, j + 1 - k, k) else bst)
    best

/-- The new `j2len` row. -/
def flmNewRow (prev : Nat → Nat) (hits : List Nat) : Nat → Nat :=
  fun j =>
    if hits.contains j then (if j = 0 then 1 else prev (j - 1) + 1) else 0

/-- The row loop of `find_longest_match`, `i` ascending; the fuel is the
number of remaining rows. -/
def flmLoop (a b : List Char) (blo bhi : Nat) :
    Nat → Nat → (Nat → Nat) → Nat × Nat × Nat → Nat × Nat × Nat
  | _, 0, _, best => best
  | i, fuel + 1, prev, best =>
    let hits :=
      match a.get? i with
      | some c => (posOf c b).filter (fun j => blo ≤ j && j < bhi)
      | none => []
    flmLoop a b blo bhi (i + 1) fuel (flmNewRow prev hits)
      (flmRowBest i prev hits best)

/-- `find_longest_match(alo, ahi, blo, bhi)` with no junk. -/
def findLongestMatch (a b : List Char) (alo ahi blo bhi : Nat) :
    Nat × Nat × Nat :=
  flmLoop a b blo bhi alo (ahi - alo) (fun _ => 0) (alo, blo, 0)

/-- The recursive block decomposition of `get_matching_blocks`, summed to
the total matched size (the sum does not depend on the queue order).  The
fuel bounds the number of queue pops. -/
def smQueueGo (a b : List Char) : Nat → List (Nat × Nat × Nat × Nat) → Nat
  | 0, _ => 0
  | _, [] => 0
  | fuel + 1, (alo, ahi, blo, bhi) :: rest =>
    match findLongestMatch a b alo ahi blo bhi with
    | (i, j, k) =>
      if k = 0 then smQueueGo a b fuel rest
      else
        k + smQueueGo a b fuel
          ((alo, i, blo, j) :: (i + k, ahi, j + k, bhi) :: rest)

/-- The total matching size `M` of `SequenceMatcher(None, a, b)`. -/
def smMatches (a b : List Char) : Nat :=
  smQueueGo a b (2 * a.length + 2) [(0, a.length, 0, b.length)]

/-- Round-half-even of `num / den` (Python `round` on the exact value). -/
def roundHalfEven (num den : Nat) : Nat :=
  let q := num / den
  let r := num % den
  if 2 * r < den then q
  else if den < 2 * r then q + 1
  else if q % 2 = 0 then q
  else q + 1

/-- `fuzz.ratio(a, b)`: `round(100 * 2M / T)`, and 100 on two empty
strings as in difflib. -/
def fuzzRatioL (a b : List Char) : Nat :=
  let T := a.length + b.length
  if T = 0 then 100 else roundHalfEven (200 * smMatches a b) T

/-! ## Helper lemmas -/

/-- `fuzzKwStep` never assigns `best_vehicle` (mirroring the source, whose
inner loop assigns only `best_score` and `best_match`). -/
theorem fuzzKwStep_bestVehicle (pr : List Char → List Char → Nat)
    (phrase : List Char) (st : FuzzSt) (kv : List Char × String) :
    (fuzzKwStep pr phrase st kv).bestVehicle = st.bestVehicle := by
  simp only [fuzzKwStep]
  split <;> rfl

/-- The keyword fold preserves `best_vehicle`. -/
theorem fuzzFold_bestVehicle (pr : List Char → List Char → Nat)
    (phrase : List Char) (kws : List (List Char × String)) (st : FuzzSt) :
    (kws.foldl (fuzzKwStep pr phrase) st).bestVehicle = st.bestVehicle := by
  induction kws generalizing st with
  | nil => rfl
  | cons kv rest ih =>
    rw [List.foldl_cons, ih, fuzzKwStep_bestVehicle]

/-- The n-gram fold preserves `best_vehicle`. -/
theorem fuzzOuter_bestVehicle (pr : List Char → List Char → Nat)
    (phrases : List (List Char)) (kws : List (List Char × String))
    (st : FuzzSt) :
    (phrases.foldl (fun st p => kws.foldl (fuzzKwStep pr p) st) st).bestVehicle
      = st.bestVehicle := by
  induction phrases generalizing st with
  | nil => rfl
  | cons p rest ih =>
    rw [List.foldl_cons, ih, fuzzFold_bestVehicle]

/-- The fuzzy vehicle stage is the identity on every record, for every
similarity metric and keyword table: its acceptance test reads the
never-assigned `best_vehicle`. -/
theorem vehicleFuzzyStage_id (pr : List Char → List Char → Nat)
    (kws : List (List Char × String)) (tl : List Char) (r : BookingData) :
    vehicleFuzzyStage pr kws tl r = r := by
  unfold vehicleFuzzyStage
  by_cases h : pyTruthy r.vehicle_type
  · simp [h]
  · simp [h, fuzzOuter_bestVehicle, pyTruthy]

/-! ## Claim C1 -/

/-- C1: the spec claims an utterance containing "day after tomorrow" (or
"overmorrow") with an empty `trip_date` yields the current date plus 2
days.  The source's `elif` chain tests `"tomorrow" in text_lower` first,
and `"tomorrow"` is a substring of `"day after tomorrow"`, so that branch
fires and stores the current date plus 1 day; only `"overmorrow"` reaches
the 2-day branch.  Evaluated here at the failing input for every date
formatter. -/
theorem tripDate_dayAfterTomorrow_bug (fmtNow : Nat → String) :
    (tripDateStage fmtNow (strL "day after tomorrow")
        initBookingData).trip_date = some (fmtNow 1) ∧
    (tripDateStage fmtNow (strL "overmorrow")
        initBookingData).trip_date = some (fmtNow 2) :=
  ⟨rfl, rfl⟩

/-! ## Claim C2 -/

/-- C2 counterexample: `"yes no"` contains a confirmation keyword and a
rejection keyword; from `pending` the source ends `confirmed`, not
`not_interested` as claimed. -/
theorem confirmAndReject_counterexample :
    detectConfirmation (strL "yes no") "pending" ≠ "not_interested" := by
  decide

/-- C2 amended: an utterance containing both a confirmation and a
rejection keyword, processed from `pending`, ends `confirmed`: the
confirmation check runs first, and its transition makes the rejection
check's `pending`-only guard fail in the same turn. -/
theorem confirmAndReject_yields_confirmed (text : List Char)
    (hconf : hasAnyKw confirmationKeywords (lowerL text) = true)
    (_hrej : hasAnyKw rejectionKeywords (lowerL text) = true) :
    detectConfirmation text "pending" = "confirmed" := by
  simp [detectConfirmation, hconf]

/-- Witness for C2's amended theorem at `"yes no"`. -/
theorem confirmAndReject_yields_confirmed_witness :
    detectConfirmation (strL "yes no") "pending" = "confirmed" :=
  confirmAndReject_yields_confirmed (strL "yes no") (by decide) (by decide)

/-! ## Claim C3 -/

/-- C3: the spec claims the fuzzy-matching stage sets `vehicle_type` to
the canonical name of the best keyword when some n-gram scores at least
85.  In the source the scan loop assigns `best_score` and `best_match`
but never `best_vehicle`, and the acceptance test `if best_vehicle and
best_score >= 85` therefore never fires: the stage is the identity for
every similarity metric, keyword table, utterance and record (in
particular at the failing input `"tata ace"` with an empty record, where
the n-gram `"tata ace"` scores 100 against the keyword `"tata ace"`). -/
theorem vehicleFuzzyStage_never_sets (pr : List Char → List Char → Nat)
    (kws : List (List Char × String)) (tl : List Char) (r : BookingData) :
    vehicleFuzzyStage pr kws tl r = r :=
  vehicleFuzzyStage_id pr kws tl r

/-! ## Claim C7 -/

/-- `_detect_confirmation` cannot move a non-`pending` status: both of its
transitions are guarded by `status == "pending"`. -/
theorem detectConfirmation_ne_pending (text : List Char) (s : String)
    (h : s ≠ "pending") : detectConfirmation text s ≠ "pending" := by
  simp only [detectConfirmation]
  by_cases h1 : hasAnyKw confirmationKeywords (lowerL text) = true <;>
    simp [h1, h]

/-- One processed turn cannot restore `pending`. -/
theorem statusTurn_ne_pending (u rt : List Char) (s : String)
    (h : s ≠ "pending") : statusTurn u rt s ≠ "pending" := by
  unfold statusTurn
  split
  · decide
  · exact detectConfirmation_ne_pending u s h

/-- C7: confirmation-state monotonicity.  Over every sequence of processed
turns a status other than `pending` never returns to `pending`; and from
`pending`, an utterance containing only confirmation keywords yields
`confirmed` while one containing only rejection keywords yields
`not_interested`. -/
theorem confirmationStatus_monotonic :
    (∀ (turns : List (List Char × List Char)) (s : String),
      s ≠ "pending" → statusAfter turns s ≠ "pending") ∧
    (∀ text : List Char,
      hasAnyKw confirmationKeywords (lowerL text) = true →
      hasAnyKw rejectionKeywords (lowerL text) = false →
      detectConfirmation text "pending" = "confirmed") ∧
    (∀ text : List Char,
      hasAnyKw confirmationKeywords (lowerL text) = false →
      hasAnyKw rejectionKeywords (lowerL text) = true →
      detectConfirmation text "pending" = "not_interested") := by
  refine ⟨?_, ?_, ?_⟩
  · intro turns
    induction turns with
    | nil => intro s h; exact h
    | cons t rest ih =>
      intro s h
      exact ih (statusTurn t.1 t.2 s) (statusTurn_ne_pending t.1 t.2 s h)
  · intro text hconf _hrej
    simp [detectConfirmation, hconf]
  · intro text hconf hrej
    simp [detectConfirmation, hconf, hrej]

/-- Witness for C7 at concrete turns and utterances. -/
theorem confirmationStatus_monotonic_witness :
    statusAfter [(strL "no thanks", strL "ok")] "confirmed" ≠ "pending" ∧
    detectConfirmation (strL "yes that is correct") "pending" = "confirmed" ∧
    detectConfirmation (strL "not interested, cancel") "pending"
      = "not_interested" :=
  ⟨confirmationStatus_monotonic.1 [(strL "no thanks", strL "ok")] "confirmed"
      (by decide),
   confirmationStatus_monotonic.2.1 (strL "yes that is correct") (by decide)
      (by decide),
   confirmationStatus_monotonic.2.2 (strL "not interested, cancel")
      (by decide) (by decide)⟩

/-! ## Claim C9 -/

/-- C9: an empty or whitespace-only utterance makes `generate_response`
return the fixed re-prompt before extraction or confirmation detection
run: the returned state is exactly the input state. -/
theorem blankInput_fixed_reprompt (pr ratio : List Char → List Char → Nat)
    (kws bodyT : List (List Char × String)) (fmtNow : Nat → String)
    (llm : Option String) (hasKey : Bool) (st : AgentState) (u : String)
    (hu : isBlankS u = true) :
    generateResponse pr ratio kws bodyT fmtNow llm hasKey st u
      = ("I didn't catch that. Could you please repeat?", st) := by
  simp [generateResponse, hu]

/-- Witness for C9 at the whitespace utterance `" "`. -/
theorem blankInput_fixed_reprompt_witness :
    generateResponse fuzzRatioL fuzzRatioL defaultVehicleKeywords
        defaultBodyTypes (fun _ => "") none true
        { history := [systemMessage], booking := initBookingData } " "
      = ("I didn't catch that. Could you please repeat?",
         { history := [systemMessage], booking := initBookingData }) :=
  blankInput_fixed_reprompt fuzzRatioL fuzzRatioL defaultVehicleKeywords
    defaultBodyTypes (fun _ => "") none true
    { history := [systemMessage], booking := initBookingData } " " (by decide)

/-! ## Claim C10 -/

/-- C10: `update_field` is a silent no-op for a name that is not an
attribute of the record, and for each data attribute it sets exactly that
field to the given value and leaves every other field unchanged. -/
theorem updateField_frame (b : BookingData) (v : String) :
    (∀ f : String, f ∉ bookingFieldNames → updateField f v b = b) ∧
    updateField "customer_name" v b = { b with customer_name := some v } ∧
    updateField "contact" v b = { b with contact := some v } ∧
    updateField "lead_source" v b = { b with lead_source := some v } ∧
    updateField "pickup_location" v b = { b with pickup_location := some v } ∧
    updateField "drop_location" v b = { b with drop_location := some v } ∧
    updateField "vehicle_type" v b = { b with vehicle_type := some v } ∧
    updateField "body_type" v b = { b with body_type := some v } ∧
    updateField "goods_type" v b = { b with goods_type := some v } ∧
    updateField "trip_date" v b = { b with trip_date := some v } ∧
    updateField "confirmation_status" v b
      = { b with confirmation_status := v } := by
  refine ⟨?_, rfl, rfl, rfl, rfl, rfl, rfl, rfl, rfl, rfl, rfl⟩
  intro f hf
  simp only [bookingFieldNames, List.mem_cons, List.not_mem_nil, or_false,
    not_or] at hf
  obtain ⟨h1, h2, h3, h4, h5, h6, h7, h8, h9, h10⟩ := hf
  simp [updateField, h1, h2, h3, h4, h5, h6, h7, h8, h9, h10]

/-- Witness for C10 at the unknown field `"nope"` and the known field
`"customer_name"`. -/
theorem updateField_frame_witness :
    updateField "nope" "x" initBookingData = initBookingData ∧
    updateField "customer_name" "x" initBookingData
      = { initBookingData with customer_name := some "x" } :=
  ⟨(updateField_frame initBookingData "x").1 "nope" (by decide),
   (updateField_frame initBookingData "x").2.1⟩

/-! ## Claim C8 -/

/-- In a keyed session the history's system turns are exactly the one
appended by `__init__`: `generate_response` appends only `user` and
`assistant` turns. -/
theorem reachable_filter_system (h : List Message) (hr : ReachableHistory h) :
    h.filter (fun m => m.role = "system") = [systemMessage] := by
  induction hr with
  | init => rfl
  | stepOk h u a hr hu ih =>
    rw [List.filter_append, ih]
    rfl
  | stepErr h u hr hu ih =>
    rw [List.filter_append, ih]
    rfl

/-- C8 counterexample: the source appends the system prompt only when an
API key is configured; the history of a key-less (echo-mode) agent holds
no system turn at all, so the history does not always contain exactly one
system turn. -/
theorem noKey_history_no_system_turn :
    ((initHistory false).filter (fun m => m.role = "system")).length ≠ 1 := by
  decide

/-- C8 amended: in a keyed session every reachable history contains
exactly one system turn, and the bounded window for the response
generator is that system turn followed by the last 10 user/assistant
turn-pairs (the last 20 non-system messages) of the history, in order. -/
theorem keyed_history_window (h : List Message) (hr : ReachableHistory h) :
    h.filter (fun m => m.role = "system") = [systemMessage] ∧
    getRecentMessages 10 h = systemMessage ::
      pySliceLast 20 (h.filter (fun m => ¬(m.role = "system"))) := by
  refine ⟨reachable_filter_system h hr, ?_⟩
  unfold getRecentMessages
  rw [reachable_filter_system h hr]
  rfl

/-- Witness for C8's amended theorem at the initial keyed history. -/
theorem keyed_history_window_witness :
    [systemMessage].filter (fun m => m.role = "system") = [systemMessage] ∧
    getRecentMessages 10 [systemMessage] = systemMessage ::
      pySliceLast 20 ([systemMessage].filter (fun m => ¬(m.role = "system"))) :=
  keyed_history_window [systemMessage] ReachableHistory.init

/-! ## Claim C4 -/

/-- C4: on `"Pickup in Chennai, drop in Bangalore, truck 32 feet
multi-axle"` the spec expects both locations from the echo form and
`vehicle_type = "32 Feet Multi-Axle"`.  The locations are set as claimed,
but because the fuzzy stage never assigns `best_vehicle` (claim C3) and
the `truck type` pattern cannot terminate its capture before the hyphen
of `multi-axle`, the numeric feet fallback fires instead and stores
`"32 Feet"`.  Evaluated for every similarity metric and date formatter. -/
theorem echoScenario_vehicle_bug (pr ratio : List Char → List Char → Nat)
    (fmtNow : Nat → String) :
    extractBookingInfo pr ratio defaultVehicleKeywords defaultBodyTypes
        fmtNow
        (strL "Pickup in Chennai, drop in Bangalore, truck 32 feet multi-axle")
        initBookingData
      = { customer_name := none, contact := none, lead_source := none,
          pickup_location := some "Chennai",
          drop_location := some "Bangalore",
          vehicle_type := some "32 Feet", body_type := none,
          goods_type := none, trip_date := none,
          confirmation_status := "pending" } := by
  simp only [extractBookingInfo, vehicleFuzzyStage_id]
  rfl

/-! ## Claim C5 -/

/-- A truthy optional field is a `some`. -/
theorem pyTruthy_isNone_false (o : Option String) (h : pyTruthy o = true) :
    o.isNone = false := by
  cases o with
  | none => simp [pyTruthy] at h
  | some s => rfl

set_option maxRecDepth 4000 in
/-- C5 counterexample: the `truck [type] X` stage (stage 2 of vehicle
detection) has no empty-field guard in the source, so processing
`"truck ace, ok"` overwrites an already-filled `vehicle_type = "Trailer"`
with `"Tata Ace"` (the capture `"ace"` scores 100 under `fuzz.ratio`
against the keyword `"ace"`; the fuzzy stage 1 is skipped for a filled
field, so its metric argument is not consulted). -/
theorem truckType_overwrites_filled_vehicle :
    (extractBookingInfo fuzzRatioL fuzzRatioL defaultVehicleKeywords
        defaultBodyTypes (fun _ => "") (strL "truck ace, ok")
        { initBookingData with vehicle_type := some "Trailer" }).vehicle_type
      = some "Tata Ace" := by
  decide

/-- Case split for the from/to guard on a filled field: the field is kept,
or overwritten by a strictly longer value. -/
theorem locUpd_filled (old : Option String) (cand : String)
    (h : pyTruthy old = true) :
    locUpd old cand = old ∨
      (locUpd old cand = some cand ∧ pyLenOr0 old < cand.length) := by
  unfold locUpd
  by_cases hc : pyLenOr0 old < cand.length
  · exact Or.inr ⟨by simp [h, hc], hc⟩
  · exact Or.inl (by simp [h, hc])

/-- Case split for the echo guard: the field is kept, or overwritten by a
value that does not depend on it. -/
theorem echoUpd_cases (old : Option String) (cand : List Char) :
    echoUpd old cand = old ∨
      ∀ o2, echoUpd o2 cand = echoUpd old cand := by
  unfold echoUpd
  by_cases hc : (!cand.isEmpty && decide (2 < cand.length)) = true
  · exact Or.inr fun o2 => by simp [hc]
  · exact Or.inl (by simp [hc])

/-- C5 amended: an extractor whose target field is already non-empty
leaves that field unchanged, with exactly three exceptions: the
confirmation-echo location form always overwrites (when it changes the
field, the stored value does not depend on the prior record), the
non-echo from/to form overwrites a location only when the new capture is
strictly longer, and vehicle-detection stage 2 (the `truck [type] X`
confirmation phrase) also overwrites a filled `vehicle_type`.  The name,
phone, body-type, goods, trip-date extractors and vehicle stages 1 and 3
are no-ops on an already-filled field. -/
theorem extractors_noop_on_filled (pr _ratio : List Char → List Char → Nat)
    (kws bodyT : List (List Char × String)) (fmtNow : Nat → String)
    (tl text : List Char) (r : BookingData) :
    (pyTruthy r.customer_name = true → nameStage tl r = r) ∧
    (pyTruthy r.contact = true → phoneStage text r = r) ∧
    (pyTruthy r.body_type = true → bodyStage bodyT tl r = r) ∧
    (pyTruthy r.goods_type = true → goodsStage tl r = r) ∧
    (pyTruthy r.trip_date = true → tripDateStage fmtNow tl r = r) ∧
    (pyTruthy r.vehicle_type = true → vehicleFuzzyStage pr kws tl r = r) ∧
    (pyTruthy r.vehicle_type = true → feetStage tl r = r) ∧
    (pyTruthy r.pickup_location = true →
      (fromToStage tl r).pickup_location = r.pickup_location ∨
      ∃ s, (fromToStage tl r).pickup_location = some s ∧
        pyLenOr0 r.pickup_location < s.length) ∧
    (pyTruthy r.drop_location = true →
      (fromToStage tl r).drop_location = r.drop_location ∨
      ∃ s, (fromToStage tl r).drop_location = some s ∧
        pyLenOr0 r.drop_location < s.length) ∧
    ((echoStage tl r).pickup_location = r.pickup_location ∨
      ∀ r2, (echoStage tl r2).pickup_location
        = (echoStage tl r).pickup_location) ∧
    ((echoStage tl r).drop_location = r.drop_location ∨
      ∀ r2, (echoStage tl r2).drop_location = (echoStage tl r).drop_location) := by
  refine ⟨?_, ?_, ?_, ?_, ?_, ?_, ?_, ?_, ?_, ?_, ?_⟩
  · intro h; simp [nameStage, h]
  · intro h; simp [phoneStage, h]
  · intro h; simp [bodyStage, pyTruthy_isNone_false _ h]
  · intro h; simp [goodsStage, h]
  · intro h; simp [tripDateStage, h]
  · intro _; exact vehicleFuzzyStage_id pr kws tl r
  · intro h; simp [feetStage, h]
  · intro h
    unfold fromToStage
    cases hm : searchL fromToAt tl with
    | none => exact Or.inl rfl
    | some g =>
      rcases locUpd_filled r.pickup_location
          (String.mk (pyTitle (pyStrip g.1))) h with h1 | ⟨h1, h2⟩
      · exact Or.inl h1
      · exact Or.inr ⟨String.mk (pyTitle (pyStrip g.1)), h1, h2⟩
  · intro h
    unfold fromToStage
    cases hm : searchL fromToAt tl with
    | none => exact Or.inl rfl
    | some g =>
      rcases locUpd_filled r.drop_location
          (String.mk (pyTitle (pyStrip g.2))) h with h1 | ⟨h1, h2⟩
      · exact Or.inl h1
      · exact Or.inr ⟨String.mk (pyTitle (pyStrip g.2)), h1, h2⟩
  · unfold echoStage
    cases hm : searchL echoAt tl with
    | none => exact Or.inl rfl
    | some g =>
      rcases echoUpd_cases r.pickup_location
          (echoClean (pyTitle (pyStrip g.1))) with h1 | h1
      · exact Or.inl h1
      · refine Or.inr fun r2 => ?_
        simp only [echoStage, hm]
        exact h1 r2.pickup_location
  · unfold echoStage
    cases hm : searchL echoAt tl with
    | none => exact Or.inl rfl
    | some g =>
      rcases echoUpd_cases r.drop_location
          (echoClean (pyTitle (pyStrip g.2))) with h1 | h1
      · exact Or.inl h1
      · refine Or.inr fun r2 => ?_
        simp only [echoStage, hm]
        exact h1 r2.drop_location

/-- Witness for C5's amended theorem at a fully filled record and the
utterance `"hello"`. -/
theorem extractors_noop_on_filled_witness :
    (nameStage (strL "hello")
      { customer_name := some "A", contact := some "9876543210",
        lead_source := some "web", pickup_location := some "Pune",
        drop_location := some "Goa", vehicle_type := some "Dost",
        body_type := some "Open", goods_type := some "Rice",
        trip_date := some "2026-01-01", confirmation_status := "pending" }
      = { customer_name := some "A", contact := some "9876543210",
          lead_source := some "web", pickup_location := some "Pune",
          drop_location := some "Goa", vehicle_type := some "Dost",
          body_type := some "Open", goods_type := some "Rice",
          trip_date := some "2026-01-01", confirmation_status := "pending" }) ∧
    ((fromToStage (strL "hello")
        { customer_name := some "A", contact := some "9876543210",
          lead_source := some "web", pickup_location := some "Pune",
          drop_location := some "Goa", vehicle_type := some "Dost",
          body_type := some "Open", goods_type := some "Rice",
          trip_date := some "2026-01-01",
          confirmation_status := "pending" }).pickup_location
        = some "Pune" ∨
      ∃ s, (fromToStage (strL "hello")
        { customer_name := some "A", contact := some "9876543210",
          lead_source := some "web", pickup_location := some "Pune",
          drop_location := some "Goa", vehicle_type := some "Dost",
          body_type := some "Open", goods_type := some "Rice",
          trip_date := some "2026-01-01",
          confirmation_status := "pending" }).pickup_location = some s ∧
        pyLenOr0 (some "Pune") < s.length) := by
  have H := extractors_noop_on_filled fuzzRatioL fuzzRatioL
    defaultVehicleKeywords defaultBodyTypes (fun _ => "") (strL "hello")
    (strL "hello")
    { customer_name := some "A", contact := some "9876543210",
      lead_source := some "web", pickup_location := some "Pune",
      drop_location := some "Goa", vehicle_type := some "Dost",
      body_type := some "Open", goods_type := some "Rice",
      trip_date := some "2026-01-01", confirmation_status := "pending" }
  exact ⟨H.1 (by decide), H.2.2.2.2.2.2.2.1 (by decide)⟩

/-! ## Claim C6 -/

/-- C6 counterexample: the separated phone pattern fixes the grouping to
2-3-5 (`[6-9]\d[\s-]?\d{3}[\s-]?\d{5}`), so the 3-3-4-grouped
`"987 654 3210"` — a 10-digit number starting with 9, spaces as
separators — matches no pattern and the extractor stores nothing, not
`"9876543210"` as claimed. -/
theorem phone_grouping_counterexample :
    (phoneStage (strL "987 654 3210") initBookingData).contact = none := by
  decide

/-- The last character before the scan position after skipping `pre`. -/
def lastD (prev : Option Char) : List Char → Option Char
  | [] => prev
  | c :: r => lastD (some c) r

/-- The scan skips a block on which the matcher dies at every start
position. -/
theorem searchAux_skip (m : Option Char → List Char → Option α)
    (pre rest : List Char) (prev : Option Char)
    (h : ∀ c ∈ pre, ∀ p r, m p (c :: r) = none) :
    searchAux m prev (pre ++ rest) = searchAux m (lastD prev pre) rest := by
  induction pre generalizing prev with
  | nil => rfl
  | cons c pre ih =>
    rw [List.cons_append]
    have hc := h c (List.mem_cons_self c pre)
    show (match m prev (c :: (pre ++ rest)) with
      | some v => some v
      | none => searchAux m (some c) (pre ++ rest)) = _
    rw [hc prev (pre ++ rest)]
    exact ih (some c) (fun c' hc' => h c' (List.mem_cons_of_mem c hc'))

/-- A character of `[6-9]` is a digit. -/
theorem isHiDigit_isDigit (c : Char) (h : isHiDigit c = true) :
    isDigitC c = true := by
  have hc : ((c = '6' ∨ c = '7') ∨ c = '8') ∨ c = '9' := by
    simpa [isHiDigit] using h
  rcases hc with ((rfl | rfl) | rfl) | rfl <;> decide

/-- A non-digit is not in `[6-9]`. -/
theorem not_hi_of_not_digit (c : Char) (h : isDigitC c = false) :
    isHiDigit c = false := by
  cases hh : isHiDigit c
  · rfl
  · rw [isHiDigit_isDigit c hh] at h
    exact h

/-- A digit is a word character. -/
theorem isWordC_of_digit (c : Char) (h : isDigitC c = true) :
    isWordC c = true := by
  simp only [isWordC, Bool.or_eq_true]
  left
  simp only [isDigitC] at h
  simp [Char.isAlphanum, h]

/-- A digit survives the source's separator stripping. -/
theorem digit_keep (c : Char) (h : isDigitC c = true) :
    (!(c = ' ' || c = '-') : Bool) = true := by
  have h1 : ¬(c = ' ') := by rintro rfl; simp [isDigitC] at h
  have h2 : ¬(c = '-') := by rintro rfl; simp [isDigitC] at h
  simp [h1, h2]

/-- A space or dash separator is not a digit. -/
theorem sep_not_digit (c : Char) (h : c = ' ' ∨ c = '-') :
    isDigitC c = false := by
  rcases h with h | h <;> subst h <;> decide

/-- A space or dash separator is in the class `[\s-]`. -/
theorem sep_isSepC (c : Char) (h : c = ' ' ∨ c = '-') : isSepC c = true := by
  rcases h with h | h <;> subst h <;> decide

/-- `matchPhone1` dies wherever its 10-character window is not all
digits or runs off the text. -/
theorem matchPhone1_none_of (p : Option Char) (s : List Char)
    (h : ¬(10 ≤ s.length ∧ (s.take 10).all isDigitC = true)) :
    matchPhone1 p s = none := by
  unfold matchPhone1
  by_cases hl : 10 ≤ s.length
  · have hall : (s.take 10).all isDigitC = false := by
      cases hh : (s.take 10).all isDigitC
      · rfl
      · exact absurd ⟨hl, hh⟩ h
    simp [hall]
  · simp [hl]

/-- `matchPhone1` dies at a non-digit start. -/
theorem matchPhone1_kill (c : Char) (hc : isDigitC c = false)
    (p : Option Char) (r : List Char) : matchPhone1 p (c :: r) = none := by
  unfold matchPhone1
  simp [headHi, not_hi_of_not_digit c hc]

/-- `matchPhone2` dies at a start outside `[6-9]`. -/
theorem matchPhone2_kill (c : Char) (hc : isDigitC c = false)
    (p : Option Char) (r : List Char) : matchPhone2 p (c :: r) = none := by
  unfold matchPhone2
  cases r with
  | nil => rfl
  | cons c1 r1 => simp [not_hi_of_not_digit c hc]

/-- No window of 10 consecutive digits starts at any position of `s`. -/
def noTenP (s : List Char) : Prop :=
  ∀ i, ¬(10 ≤ (List.drop i s).length ∧
    ((List.drop i s).take 10).all isDigitC = true)

/-- The empty text has no digit window. -/
theorem noTenP_nil : noTenP [] := by
  intro i
  simp

/-- Extend `noTenP` by one head position. -/
theorem noTenP_cons (c : Char) (rest : List Char)
    (h0 : ¬(10 ≤ (c :: rest).length ∧
      ((c :: rest).take 10).all isDigitC = true))
    (h : noTenP rest) : noTenP (c :: rest) := by
  intro i
  cases i with
  | zero => simpa using h0
  | succ i => simpa [List.drop_succ_cons] using h i

/-- A digit-free text has no digit window. -/
theorem noTenP_of_nodigit (s : List Char)
    (hs : ∀ c ∈ s, isDigitC c = false) : noTenP s := by
  induction s with
  | nil => exact noTenP_nil
  | cons c rest ih =>
    refine noTenP_cons c rest ?_ (ih fun c' h' => hs c' (List.mem_cons_of_mem c h'))
    rintro ⟨hl, hall⟩
    have hmem : c ∈ (c :: rest).take 10 := by
      simp [List.take_succ_cons]
    have := List.all_eq_true.mp hall c hmem
    rw [hs c (List.mem_cons_self c rest)] at this
    exact Bool.noConfusion this

/-- Prepend a digit-free block to a `noTenP` text. -/
theorem noTenP_append_nodigit (pre s : List Char)
    (hpre : ∀ c ∈ pre, isDigitC c = false) (hs : noTenP s) :
    noTenP (pre ++ s) := by
  induction pre with
  | nil => exact hs
  | cons c pre ih =>
    rw [List.cons_append]
    refine noTenP_cons c (pre ++ s) ?_
      (ih fun c' h' => hpre c' (List.mem_cons_of_mem c h'))
    rintro ⟨hl, hall⟩
    have hmem : c ∈ (c :: (pre ++ s)).take 10 := by
      simp [List.take_succ_cons]
    have := List.all_eq_true.mp hall c hmem
    rw [hpre c (List.mem_cons_self c pre)] at this
    exact Bool.noConfusion this

/-- A window holding a known non-digit is dead. -/
theorem window_dead_of_mem (s : List Char) (c : Char)
    (hc : isDigitC c = false) (hmem : c ∈ s.take 10) :
    ¬(10 ≤ s.length ∧ (s.take 10).all isDigitC = true) := by
  rintro ⟨_, hall⟩
  have := List.all_eq_true.mp hall c hmem
  rw [hc] at this
  exact Bool.noConfusion this

/-- A window that runs from a short block into a digit-free tail is
dead. -/
theorem window_dead_tail (l post : List Char) (hl : l.length < 10)
    (hpost : ∀ c ∈ post, isDigitC c = false) :
    ¬(10 ≤ (l ++ post).length ∧ ((l ++ post).take 10).all isDigitC = true) := by
  rintro ⟨hlen, hall⟩
  rw [List.length_append] at hlen
  cases hp : post with
  | nil =>
    subst hp
    simp at hlen
    omega
  | cons p ps =>
    subst hp
    have hmem : p ∈ ((l ++ p :: ps).take 10) := by
      rw [List.take_append_eq_append_take]
      refine List.mem_append_right _ ?_
      have : 1 ≤ 10 - l.length := by omega
      rcases Nat.exists_eq_add_of_le this with ⟨k, hk⟩
      rw [hk, Nat.add_comm 1 k]
      simp
    have := List.all_eq_true.mp hall p hmem
    rw [hpost p (List.mem_cons_self p ps)] at this
    exact Bool.noConfusion this

/-- If no position of `s` opens a 10-digit window, the first phone
pattern finds nothing anywhere in `s`. -/
theorem searchP1_none (s : List Char) (h : noTenP s) (prev : Option Char) :
    searchAux matchPhone1 prev s = none := by
  induction s generalizing prev with
  | nil => exact matchPhone1_none_of prev [] (by simp)
  | cons c rest ih =>
    have h0 : matchPhone1 prev (c :: rest) = none :=
      matchPhone1_none_of prev (c :: rest) (h 0)
    simp only [searchAux, h0]
    exact ih (fun i => by simpa [List.drop_succ_cons] using h (i + 1)) (some c)

/-- The embedded number: two digits, an optional separator, three digits,
an optional separator, five digits (the 2-3-5 grouping of the source's
separated pattern). -/
def phoneEmbed (c0 c1 c2 c3 c4 c5 c6 c7 c8 c9 : Char)
    (sep1 sep2 : Option Char) : List Char :=
  [c0, c1] ++ sep1.toList ++ [c2, c3, c4] ++ sep2.toList ++
    [c5, c6, c7, c8, c9]

/-- `phoneStage` stores the first pattern-loop result when the spoken
path is disabled and the contact is empty. -/
theorem phoneStage_set (t : List Char) (r : BookingData) (ph : String)
    (hc : pyTruthy r.contact = false)
    (hsp : (wordsToDigits t).length ≠ 10)
    (hl : phoneLoop1 t = some ph) :
    phoneStage t r = { r with contact := some ph } := by
  unfold phoneStage
  rw [hc]
  have hg : (!(wordsToDigits t).isEmpty &&
      decide ((wordsToDigits t).length = 10) &&
      headHi (wordsToDigits t)) = false := by
    have hd : decide ((wordsToDigits t).length = 10) = false := by
      simp [hsp]
    simp [hd]
  simp only [Bool.not_false, if_true, hg, Bool.false_eq_true, if_false, hl]

/-- The contiguous 10-digit window matches the first phone pattern. -/
theorem matchPhone1_at_digits (b : Option Char)
    (c0 c1 c2 c3 c4 c5 c6 c7 c8 c9 : Char) (post : List Char)
    (hb : bndBefore b = true) (h0 : isHiDigit c0 = true)
    (h1 : isDigitC c1 = true) (h2 : isDigitC c2 = true)
    (h3 : isDigitC c3 = true) (h4 : isDigitC c4 = true)
    (h5 : isDigitC c5 = true) (h6 : isDigitC c6 = true)
    (h7 : isDigitC c7 = true) (h8 : isDigitC c8 = true)
    (h9 : isDigitC c9 = true) (hpost : bndAfter post = true) :
    matchPhone1 b
        (c0 :: c1 :: c2 :: c3 :: c4 :: c5 :: c6 :: c7 :: c8 :: c9 :: post)
      = some [c0, c1, c2, c3, c4, c5, c6, c7, c8, c9] := by
  unfold matchPhone1
  simp [headHi, hb, h0, isHiDigit_isDigit c0 h0, h1, h2, h3, h4, h5, h6,
    h7, h8, h9, hpost, Nat.le_add_right]

/-- The 2-3-5-separated window matches the second phone pattern, with
the separators inside the capture. -/
theorem matchPhone2_at_embed (b : Option Char)
    (c0 c1 c2 c3 c4 c5 c6 c7 c8 c9 s1 s2 : Char) (post : List Char)
    (hb : bndBefore b = true) (h0 : isHiDigit c0 = true)
    (h1 : isDigitC c1 = true) (h2 : isDigitC c2 = true)
    (h3 : isDigitC c3 = true) (h4 : isDigitC c4 = true)
    (h5 : isDigitC c5 = true) (h6 : isDigitC c6 = true)
    (h7 : isDigitC c7 = true) (h8 : isDigitC c8 = true)
    (h9 : isDigitC c9 = true)
    (hs1 : s1 = ' ' ∨ s1 = '-') (hs2 : s2 = ' ' ∨ s2 = '-')
    (hpost : bndAfter post = true) :
    matchPhone2 b
        (c0 :: c1 :: s1 :: c2 :: c3 :: c4 :: s2 :: c5 :: c6 :: c7 :: c8 ::
          c9 :: post)
      = some [c0, c1, s1, c2, c3, c4, s2, c5, c6, c7, c8, c9] := by
  unfold matchPhone2 p2SepMid p2Mid3 p2Sep5 p2Tail5
  simp [hb, h0, h1, h2, h3, h4, h5, h6, h7, h8, h9,
    sep_isSepC s1 hs1, sep_isSepC s2 hs2, hpost, Nat.le_add_right]

/-- A separator character is dropped by the source's cleaning. -/
theorem sep_drop (c : Char) (h : c = ' ' ∨ c = '-') :
    (!(c = ' ' || c = '-') : Bool) = false := by
  rcases h with h | h <;> subst h <;> decide

/-- The 2-3-5-separated embedding (digit runs of length at most 5)
followed by a digit-free tail opens no 10-digit window. -/
theorem noTenP_sepEmbed (c0 c1 c2 c3 c4 c5 c6 c7 c8 c9 s1 s2 : Char)
    (post : List Char)
    (hs1 : isDigitC s1 = false) (hs2 : isDigitC s2 = false)
    (hpost : ∀ c ∈ post, isDigitC c = false) :
    noTenP (c0 :: c1 :: s1 :: c2 :: c3 :: c4 :: s2 :: c5 :: c6 :: c7 ::
      c8 :: c9 :: post) := by
  refine noTenP_cons _ _ ?_ (noTenP_cons _ _ ?_ (noTenP_cons _ _ ?_
    (noTenP_cons _ _ ?_ (noTenP_cons _ _ ?_ (noTenP_cons _ _ ?_
    (noTenP_cons _ _ ?_ (noTenP_cons _ _ ?_ (noTenP_cons _ _ ?_
    (noTenP_cons _ _ ?_ (noTenP_cons _ _ ?_ (noTenP_cons _ _ ?_
    (noTenP_of_nodigit post hpost))))))))))))
  · exact window_dead_of_mem _ s1 hs1 (by simp)
  · exact window_dead_of_mem _ s1 hs1 (by simp)
  · exact window_dead_of_mem _ s1 hs1 (by simp)
  · exact window_dead_of_mem _ s2 hs2 (by simp)
  · exact window_dead_of_mem _ s2 hs2 (by simp)
  · exact window_dead_of_mem _ s2 hs2 (by simp)
  · exact window_dead_of_mem _ s2 hs2 (by simp)
  · exact window_dead_tail [c5, c6, c7, c8, c9] post (by norm_num) hpost
  · exact window_dead_tail [c6, c7, c8, c9] post (by norm_num) hpost
  · exact window_dead_tail [c7, c8, c9] post (by norm_num) hpost
  · exact window_dead_tail [c8, c9] post (by norm_num) hpost
  · exact window_dead_tail [c9] post (by norm_num) hpost

set_option maxHeartbeats 1000000 in
/-- C6 amended: the phone extractor accepts an embedded 10-digit number
beginning with 6-9 when it is contiguous or separated by a single
space/dash after the second digit and after the fifth (the pattern's
fixed 2-3-5 grouping) — not at arbitrary separator positions.  For every
such number embedded with non-word, digit-free context on both sides, in
an utterance whose spoken-digit scan does not itself produce 10 digits,
the extractor applied to a record with empty contact stores exactly the
10-digit numeral string, separators stripped. -/
theorem phoneExtractor_amended
    (c0 c1 c2 c3 c4 c5 c6 c7 c8 c9 : Char) (sep1 sep2 : Option Char)
    (pre post : List Char) (r : BookingData)
    (h0 : isHiDigit c0 = true)
    (h1 : isDigitC c1 = true) (h2 : isDigitC c2 = true)
    (h3 : isDigitC c3 = true) (h4 : isDigitC c4 = true)
    (h5 : isDigitC c5 = true) (h6 : isDigitC c6 = true)
    (h7 : isDigitC c7 = true) (h8 : isDigitC c8 = true)
    (h9 : isDigitC c9 = true)
    (hsep1 : ∀ c, sep1 = some c → c = ' ' ∨ c = '-')
    (hsep2 : ∀ c, sep2 = some c → c = ' ' ∨ c = '-')
    (hsepBoth : sep1.isSome = sep2.isSome)
    (hpre : ∀ c ∈ pre, isDigitC c = false)
    (hpreB : bndBefore (lastD none pre) = true)
    (hpost : ∀ c ∈ post, isDigitC c = false)
    (hpostB : bndAfter post = true)
    (hcontact : pyTruthy r.contact = false)
    (hspoken : (wordsToDigits (pre ++
      phoneEmbed c0 c1 c2 c3 c4 c5 c6 c7 c8 c9 sep1 sep2 ++ post)).length
        ≠ 10) :
    phoneStage
        (pre ++ phoneEmbed c0 c1 c2 c3 c4 c5 c6 c7 c8 c9 sep1 sep2 ++ post) r
      = { r with contact := some (String.mk [c0, c1, c2, c3, c4, c5, c6, c7, c8, c9]) } := by
  apply phoneStage_set _ _ _ hcontact hspoken
  have hd0 : isDigitC c0 = true := isHiDigit_isDigit c0 h0
  rcases sep1 with _ | s1 <;> rcases sep2 with _ | s2
  · -- contiguous: the first pattern matches the number itself
    have hs : searchL matchPhone1
        (pre ++ phoneEmbed c0 c1 c2 c3 c4 c5 c6 c7 c8 c9 none none ++ post)
        = some [c0, c1, c2, c3, c4, c5, c6, c7, c8, c9] := by
      unfold searchL
      rw [List.append_assoc]
      rw [searchAux_skip matchPhone1 pre _ none
        (fun c hc p rr => matchPhone1_kill c (hpre c hc) p rr)]
      show searchAux matchPhone1 (lastD none pre)
        (c0 :: c1 :: c2 :: c3 :: c4 :: c5 :: c6 :: c7 :: c8 :: c9 :: post)
          = _
      have hm := matchPhone1_at_digits (lastD none pre) c0 c1 c2 c3 c4 c5 c6
        c7 c8 c9 post hpreB h0 h1 h2 h3 h4 h5 h6 h7 h8 h9 hpostB
      simp only [searchAux, hm]
    have hr : removeSpDash [c0, c1, c2, c3, c4, c5, c6, c7, c8, c9]
        = [c0, c1, c2, c3, c4, c5, c6, c7, c8, c9] := by
      simp [removeSpDash, List.filter, digit_keep c0 hd0, digit_keep c1 h1,
        digit_keep c2 h2, digit_keep c3 h3, digit_keep c4 h4,
        digit_keep c5 h5, digit_keep c6 h6, digit_keep c7 h7,
        digit_keep c8 h8, digit_keep c9 h9]
    unfold phoneLoop1
    simp only [hs, hr]
    simp
  · simp at hsepBoth
  · simp at hsepBoth
  · -- separated: the first pattern dies, the second matches the grouping
    have hs1 := hsep1 s1 rfl
    have hs2 := hsep2 s2 rfl
    have hEq : pre ++ phoneEmbed c0 c1 c2 c3 c4 c5 c6 c7 c8 c9 (some s1)
        (some s2) ++ post
        = pre ++ (c0 :: c1 :: s1 :: c2 :: c3 :: c4 :: s2 :: c5 :: c6 :: c7 ::
          c8 :: c9 :: post) := by
      rw [List.append_assoc]
      rfl
    rw [hEq]
    have hp1 : searchL matchPhone1
        (pre ++ (c0 :: c1 :: s1 :: c2 :: c3 :: c4 :: s2 :: c5 :: c6 :: c7 ::
          c8 :: c9 :: post)) = none := by
      unfold searchL
      apply searchP1_none
      exact noTenP_append_nodigit pre _ hpre
        (noTenP_sepEmbed c0 c1 c2 c3 c4 c5 c6 c7 c8 c9 s1 s2 post
          (sep_not_digit s1 hs1) (sep_not_digit s2 hs2) hpost)
    have hp2 : searchL matchPhone2
        (pre ++ (c0 :: c1 :: s1 :: c2 :: c3 :: c4 :: s2 :: c5 :: c6 :: c7 ::
          c8 :: c9 :: post))
        = some [c0, c1, s1, c2, c3, c4, s2, c5, c6, c7, c8, c9] := by
      unfold searchL
      rw [searchAux_skip matchPhone2 pre _ none
        (fun c hc p rr => matchPhone2_kill c (hpre c hc) p rr)]
      have hm := matchPhone2_at_embed (lastD none pre) c0 c1 c2 c3 c4 c5 c6
        c7 c8 c9 s1 s2 post hpreB h0 h1 h2 h3 h4 h5 h6 h7 h8 h9 hs1 hs2
        hpostB
      simp only [searchAux, hm]
    have hr : removeSpDash [c0, c1, s1, c2, c3, c4, s2, c5, c6, c7, c8, c9]
        = [c0, c1, c2, c3, c4, c5, c6, c7, c8, c9] := by
      simp [removeSpDash, List.filter, digit_keep c0 hd0, digit_keep c1 h1,
        digit_keep c2 h2, digit_keep c3 h3, digit_keep c4 h4,
        digit_keep c5 h5, digit_keep c6 h6, digit_keep c7 h7,
        digit_keep c8 h8, digit_keep c9 h9, sep_drop s1 hs1,
        sep_drop s2 hs2]
    unfold phoneLoop1 phoneLoop2
    simp only [hp1, hp2, hr]
    simp

/-- Witness for C6's amended theorem: `"call 98 765-43210 ok"` stores
`"9876543210"`. -/
theorem phoneExtractor_amended_witness :
    phoneStage (strL "call " ++
        phoneEmbed '9' '8' '7' '6' '5' '4' '3' '2' '1' '0' (some ' ')
          (some '-') ++ strL " ok") initBookingData
      = { initBookingData with contact := some (String.mk
          ['9', '8', '7', '6', '5', '4', '3', '2', '1', '0']) } :=
  phoneExtractor_amended '9' '8' '7' '6' '5' '4' '3' '2' '1' '0' (some ' ')
    (some '-') (strL "call ") (strL " ok") initBookingData (by decide)
    (by decide) (by decide) (by decide) (by decide) (by decide) (by decide)
    (by decide) (by decide) (by decide)
    (fun c hc => by injection hc with h; exact Or.inl h.symm)
    (fun c hc => by injection hc with h; exact Or.inr h.symm)
    rfl (by decide) (by decide) (by decide) (by decide) (by decide)
    (by decide)
